import Mathlib

/-
Verification development for the Open Platform deployment script
(src/deployment.js).

The script is a sequential orchestration: a command-line action token
selects one of three entry points (check / release_branch / release_pr);
the Jira search API is queried for the issues of a release version; the
per-issue dev-status detail endpoint yields the pull requests and hence
the repositories touched by the release; a static whitelist filters the
repositories; and per accepted repository either a release branch is cut
via local git commands or a Bitbucket pull request is opened.

The external collaborators (Jira search, Jira dev-status detail, the
Bitbucket PR endpoint, the local git working copies) are modelled as
explicit function parameters returning Except values: an .error result
models a rejected promise (a thrown JS exception).  JavaScript values
that may be undefined (process.argv entries) are modelled by JsStr; the
JS coercion of undefined inside a template literal is JsStr.interp.
Accessing a property of undefined is modelled as a JsError.typeError.
-/

namespace Deployment

/-- A JS string value that may be undefined (a process.argv entry). -/
inductive JsStr where
  | undef
  | str (s : String)
deriving DecidableEq

/-- JS template-literal interpolation: undefined prints as "undefined". -/
def JsStr.interp : JsStr → String
  | .undef => "undefined"
  | .str s => s

/-- A JS runtime error: either an exception thrown by an external call
(carrying its message) or a TypeError from accessing a property of
undefined. -/
inductive JsError where
  | thrown (msg : String)
  | typeError (msg : String)
deriving DecidableEq

/-- Console output events: console.log, console.error, console.table. -/
inductive LogEvent where
  | log (msg : String)
  | error (msg : String)
  | table
deriving DecidableEq

/-- RELEASE_ACTIONS from src/deployment.js line 7. -/
def RELEASE_ACTIONS : List String := ["check", "release_branch", "release_pr"]

/-- WHITELISTED_REPOS from src/deployment.js lines 21-33. -/
def WHITELISTED_REPOS : List String :=
  ["developer-api",
   "developer-center",
   "developer-oauth",
   "developer-event",
   "mini-app-store",
   "sub9-api",
   "metafield-api",
   "multipass-api",
   "merchant-event-serializer",
   "storefront-api"]

/-- releaseBranchName from line 18: the template literal
release/releaseVersion, where releaseVersion is process.argv[3] and may
be undefined. -/
def releaseBranchName (releaseVersion : JsStr) : String :=
  "release/" ++ releaseVersion.interp

/-- A branch reference inside the Bitbucket PR request body. -/
structure BranchRef where
  name : String
deriving DecidableEq

/-- A source or destination entry of the Bitbucket PR request body. -/
structure BranchSpec where
  branch : BranchRef
deriving DecidableEq

/-- The Bitbucket PR-creation request body (lines 45-58). -/
structure PrRequestData where
  title : String
  description : String
  source : BranchSpec
  destination : BranchSpec
deriving DecidableEq

/-- BITBUCKET_API_CREATE_PR_REQUEST_DATA from lines 45-58, parameterised
by the releaseVersion argv entry it mentions. -/
def BITBUCKET_API_CREATE_PR_REQUEST_DATA (releaseVersion : JsStr) : PrRequestData :=
  { title := "Release " ++ releaseVersion.interp
  , description := ""
  , source := { branch := { name := releaseBranchName releaseVersion } }
  , destination := { branch := { name := "master" } } }

/-- A pull request as returned by the Jira dev-status detail endpoint:
the script reads p.repositoryName and p.author.name. -/
structure PullRequest where
  repositoryName : String
  authorName : String
deriving DecidableEq

/-- One entry of the detail array of the dev-status response; the script
reads detail.detail[0].pullRequests. -/
structure DetailEntry where
  pullRequests : List PullRequest
deriving DecidableEq

/-- The dev-status detail response body. -/
structure DevStatus where
  detail : List DetailEntry
deriving DecidableEq

/-- An issue link: the script reads p.inwardIssue ? p.inwardIssue.key :
p.outwardIssue.key, either side possibly absent. -/
structure IssueLink where
  inwardKey : Option String
  outwardKey : Option String
deriving DecidableEq

/-- The fields of a Jira issue the script reads: summary, status.name,
issuelinks, customfield_10041 (deployment remarks, possibly null). -/
structure IssueFields where
  summary : String
  statusName : String
  issuelinks : List IssueLink
  remarks : Option String
deriving DecidableEq

/-- A Jira issue as used by the script: id (for the detail endpoint),
key (table row key), and fields. -/
structure Issue where
  id : String
  key : String
  fields : IssueFields
deriving DecidableEq

/-- The Jira search response; the script only reads .issues. -/
structure SearchResult where
  issues : List Issue
deriving DecidableEq

/-- The JQL string built at line 94: project = DC AND fixVersion =
"releaseVersion" (template literal, so an absent argv[3] interpolates as
undefined). -/
def jqlFor (releaseVersion : JsStr) : String :=
  "project = DC AND fixVersion = \"" ++ releaseVersion.interp ++ "\""

/-- getJiraCardsFromRelease (lines 92-102): calls the search service with
the JQL; on rejection logs the error message via console.error and
returns undefined (modelled as none).  The search service is a parameter
from JQL string to result-or-thrown-message. -/
def getJiraCardsFromRelease (search : String → Except String SearchResult)
    (releaseVersion : JsStr) : List LogEvent × Option SearchResult :=
  match search (jqlFor releaseVersion) with
  | .ok res => ([], some res)
  | .error msg =>
      ([LogEvent.error ("Error retrieving Jira cards from the release: " ++ msg)], none)

/-- lodash _.uniq with an explicit seen accumulator: keeps the first
occurrence of each element. -/
def uniqAux (seen : List String) : List String → List String
  | [] => []
  | x :: xs => if x ∈ seen then uniqAux seen xs else x :: uniqAux (x :: seen) xs

/-- lodash _.uniq as used at lines 114, 117, 139, 142, 145. -/
def uniq (l : List String) : List String := uniqAux [] l

/-- The loop body of getReposFromRelease (lines 105-118): for each issue
await the detail fetch (getPRsFromJira, a parameter from issue id to
response-or-thrown-error), read detail.detail[0].pullRequests (a
TypeError if the detail array is empty, since detail[0] is then
undefined), and push the uniq of the repository names.  An .error result
models the rejection of the enclosing async function: the loop stops at
the first failing await and no repository list is produced. -/
def getReposFromReleaseAux (getPRsFromJira : String → Except JsError DevStatus) :
    List Issue → Except JsError (List String)
  | [] => Except.ok []
  | issue :: rest =>
      match getPRsFromJira issue.id with
      | .error e => Except.error e
      | .ok d =>
          match d.detail with
          | [] => Except.error (JsError.typeError "Cannot read properties of undefined (reading pullRequests)")
          | entry :: _ =>
              match getReposFromReleaseAux getPRsFromJira rest with
              | .error e => Except.error e
              | .ok rs =>
                  Except.ok (uniq (entry.pullRequests.map (fun p => p.repositoryName)) ++ rs)

/-- getReposFromRelease (lines 105-118): iterate over release.issues and
return _.uniq of all collected repository names. -/
def getReposFromRelease (getPRsFromJira : String → Except JsError DevStatus)
    (release : SearchResult) : Except JsError (List String) :=
  match getReposFromReleaseAux getPRsFromJira release.issues with
  | .error e => Except.error e
  | .ok rs => Except.ok (uniq rs)

/-- A repository name is referenced by the release: some issue's detail
fetch succeeds and its first detail entry has a pull request naming that
repository.  This is the set the script collects. -/
def referencedIn (getPRsFromJira : String → Except JsError DevStatus)
    (issues : List Issue) (r : String) : Prop :=
  ∃ issue ∈ issues, ∃ d, getPRsFromJira issue.id = Except.ok d ∧
    ∃ entry rest, d.detail = entry :: rest ∧
      r ∈ entry.pullRequests.map (fun p => p.repositoryName)

/-- A git command issued through simple-git, with the arguments the
script passes (checkoutBranch, lines 169-186). -/
inductive GitCmd where
  | status
  | stash
  | fetch
  | checkout (branch : String)
  | pull
  | checkoutLocalBranch (branch : String)
  | push (remote : String) (branch : String)
deriving DecidableEq

/-- The state of one repository's working copy as the black-box git
layer sees it: whether git.status() reports a clean tree, and which
commands reject (with what message) when awaited. -/
structure GitEnv where
  isClean : Bool
  fails : GitCmd → Option String

/-- One awaited git call: if the call so far has already thrown, nothing
more runs; otherwise the command is issued (appended to the trace) and
either throws per the environment or succeeds. -/
def gitStep (env : GitEnv) (cmd : GitCmd) (st : List GitCmd × Except String Unit) :
    List GitCmd × Except String Unit :=
  match st.2 with
  | .error e => (st.1, Except.error e)
  | .ok _ =>
      match env.fails cmd with
      | some msg => (st.1 ++ [cmd], Except.error msg)
      | none => (st.1 ++ [cmd], Except.ok ())

/-- stashChangesIfNeeded (lines 161-167): await git.status(); if the
tree is not clean, await git.stash(). -/
def stashChangesIfNeeded (env : GitEnv) (st : List GitCmd × Except String Unit) :
    List GitCmd × Except String Unit :=
  let st1 := gitStep env GitCmd.status st
  match st1.2 with
  | .error e => (st1.1, Except.error e)
  | .ok _ => if env.isClean then st1 else gitStep env GitCmd.stash st1

/-- checkoutBranch (lines 169-186): stash if needed, fetch, checkout
dev, pull, checkout a new local branch, push it to origin — each await
in order, the async function rejecting at the first failing call. -/
def checkoutBranch (env : GitEnv) (branchName : String) :
    List GitCmd × Except String Unit :=
  let st0 := stashChangesIfNeeded env ([], Except.ok ())
  let st1 := gitStep env GitCmd.fetch st0
  let st2 := gitStep env (GitCmd.checkout "dev") st1
  let st3 := gitStep env GitCmd.pull st2
  let st4 := gitStep env (GitCmd.checkoutLocalBranch branchName) st3
  gitStep env (GitCmd.push "origin" branchName) st4

/-- Modelled from the spec (section 4.4): the Branch Operator's intended
command sequence — status, stash only when dirty, fetch, checkout of the
development branch, pull, create the release branch, push it to origin.
Used to compare checkoutBranch against the spec's sequence. -/
def specSequence (clean : Bool) (branchName : String) : List GitCmd :=
  [GitCmd.status] ++ (if clean then [] else [GitCmd.stash]) ++
  [GitCmd.fetch, GitCmd.checkout "dev", GitCmd.pull,
   GitCmd.checkoutLocalBranch branchName, GitCmd.push "origin" branchName]

/-- Modelled from the spec (section 4.4): run a planned command list
strictly in order, aborting at the first failing command.  The trace is
the commands actually issued (the failing one included). -/
def runPlan (env : GitEnv) : List GitCmd → List GitCmd × Except String Unit
  | [] => ([], Except.ok ())
  | c :: cs =>
      match env.fails c with
      | some msg => ([c], Except.error msg)
      | none =>
          let st := runPlan env cs
          (c :: st.1, st.2)

/-- Decidable equality for Except values with decidable components. -/
instance {ε α : Type} [DecidableEq ε] [DecidableEq α] : DecidableEq (Except ε α)
  | .error e, .error f =>
      if h : e = f then Decidable.isTrue (by rw [h])
      else Decidable.isFalse (fun hc => h (by cases hc; rfl))
  | .error _, .ok _ => Decidable.isFalse (fun hc => by cases hc)
  | .ok _, .error _ => Decidable.isFalse (fun hc => by cases hc)
  | .ok x, .ok y =>
      if h : x = y then Decidable.isTrue (by rw [h])
      else Decidable.isFalse (fun hc => h (by cases hc; rfl))

/-- The outcome of one iteration of the createReleaseBranches loop
(lines 193-215): either the skip console.log for a non-whitelisted
repository, or an attempt whose result records the caught error (the
console.error with the repository name and the error) or the success
log. -/
inductive BranchEvent where
  | skip (repo : String)
  | attempt (repo : String) (trace : List GitCmd) (result : Except String Unit)
deriving DecidableEq

/-- One iteration of the createReleaseBranches loop body (lines
193-215): the whitelist test is Array.includes, i.e. exact string
equality; inside the try/catch the checkoutBranch outcome is recorded
and never propagated. -/
def branchStep (repoEnv : String → GitEnv) (branchName : String) (repo : String) :
    BranchEvent :=
  if WHITELISTED_REPOS.contains repo then
    BranchEvent.attempt repo (checkoutBranch (repoEnv repo) branchName).1
      (checkoutBranch (repoEnv repo) branchName).2
  else
    BranchEvent.skip repo

/-- The for-of loop of createReleaseBranches over the resolved
repositories, in order. -/
def branchLoop (repoEnv : String → GitEnv) (branchName : String) :
    List String → List BranchEvent
  | [] => []
  | r :: rs => branchStep repoEnv branchName r :: branchLoop repoEnv branchName rs

/-- createReleaseBranches (lines 189-216): fetch the Jira cards, resolve
the repositories (release.issues is read from the possibly-undefined
search result — a TypeError when the search failed), then run the
per-repository loop with the release branch name. -/
def createReleaseBranches (search : String → Except String SearchResult)
    (getPRsFromJira : String → Except JsError DevStatus)
    (repoEnv : String → GitEnv) (releaseVersion : JsStr) :
    List LogEvent × Except JsError (List BranchEvent) :=
  let res := getJiraCardsFromRelease search releaseVersion
  match res.2 with
  | none =>
      (res.1, Except.error (JsError.typeError "Cannot read properties of undefined (reading issues)"))
  | some jiraRes =>
      match getReposFromRelease getPRsFromJira jiraRes with
      | .error e => (res.1, Except.error e)
      | .ok releaseRepos =>
          (res.1, Except.ok (branchLoop repoEnv (releaseBranchName releaseVersion) releaseRepos))

/-- The outcome of one iteration of the createReleasePRs loop (lines
235-255): the skip console.log, or an attempt carrying the request body
posted by createBitbucketPr and the caught outcome. -/
inductive PrEvent where
  | skip (repo : String)
  | attempt (repo : String) (request : PrRequestData) (result : Except String Unit)
deriving DecidableEq

/-- One iteration of the createReleasePRs loop body (lines 235-255):
whitelist test by Array.includes, then createBitbucketPr (lines
223-228), which posts BITBUCKET_API_CREATE_PR_REQUEST_DATA; the PR API
is a parameter from repository slug to outcome. -/
def prStep (prApi : String → Except String Unit) (releaseVersion : JsStr)
    (repo : String) : PrEvent :=
  if WHITELISTED_REPOS.contains repo then
    PrEvent.attempt repo (BITBUCKET_API_CREATE_PR_REQUEST_DATA releaseVersion) (prApi repo)
  else
    PrEvent.skip repo

/-- The for-of loop of createReleasePRs over the resolved repositories. -/
def prLoop (prApi : String → Except String Unit) (releaseVersion : JsStr) :
    List String → List PrEvent
  | [] => []
  | r :: rs => prStep prApi releaseVersion r :: prLoop prApi releaseVersion rs

/-- createReleasePRs (lines 231-256). -/
def createReleasePRs (search : String → Except String SearchResult)
    (getPRsFromJira : String → Except JsError DevStatus)
    (prApi : String → Except String Unit) (releaseVersion : JsStr) :
    List LogEvent × Except JsError (List PrEvent) :=
  let res := getJiraCardsFromRelease search releaseVersion
  match res.2 with
  | none =>
      (res.1, Except.error (JsError.typeError "Cannot read properties of undefined (reading issues)"))
  | some jiraRes =>
      match getReposFromRelease getPRsFromJira jiraRes with
      | .error e => (res.1, Except.error e)
      | .ok releaseRepos =>
          (res.1, Except.ok (prLoop prApi releaseVersion releaseRepos))

/-- The key shown for an issue link (line 146-148): p.inwardIssue ?
p.inwardIssue.key : p.outwardIssue.key — a TypeError when both sides are
absent. -/
def linkKey (l : IssueLink) : Except JsError String :=
  match l.inwardKey with
  | some k => Except.ok k
  | none =>
      match l.outwardKey with
      | some k => Except.ok k
      | none => Except.error (JsError.typeError "Cannot read properties of undefined (reading key)")

/-- The mapped issue-link keys of one issue. -/
def linkKeys : List IssueLink → Except JsError (List String)
  | [] => Except.ok []
  | l :: ls =>
      match linkKey l with
      | .error e => Except.error e
      | .ok k =>
          match linkKeys ls with
          | .error e => Except.error e
          | .ok ks => Except.ok (k :: ks)

/-- One row of the console.table built by displayReleaseDetails (lines
136-150): Summary, Status, Repo, Author(s), Linked issues, Deployment
remarks. -/
structure TableRow where
  summary : String
  status : String
  repo : String
  authors : String
  linkedIssues : String
  deploymentRemarks : Option String
deriving DecidableEq

/-- The loop body of displayReleaseDetails (lines 129-151) for one
issue: fetch the detail, read detail.detail[0].pullRequests, and fill
the row keyed by the issue key. -/
def buildRow (getPRsFromJira : String → Except JsError DevStatus) (issue : Issue) :
    Except JsError (String × TableRow) :=
  match getPRsFromJira issue.id with
  | .error e => Except.error e
  | .ok d =>
      match d.detail with
      | [] => Except.error (JsError.typeError "Cannot read properties of undefined (reading pullRequests)")
      | entry :: _ =>
          match linkKeys issue.fields.issuelinks with
          | .error e => Except.error e
          | .ok keys =>
              Except.ok (issue.key,
                { summary := issue.fields.summary
                , status := issue.fields.statusName
                , repo := String.intercalate ","
                    (uniq (entry.pullRequests.map (fun p => p.repositoryName)))
                , authors := String.intercalate ","
                    (uniq (entry.pullRequests.map (fun p => p.authorName)))
                , linkedIssues := String.intercalate "," (uniq keys)
                , deploymentRemarks := issue.fields.remarks })

/-- The whole table: rows for the issues in order, the loop rejecting at
the first failing await. -/
def buildTable (getPRsFromJira : String → Except JsError DevStatus) :
    List Issue → Except JsError (List (String × TableRow))
  | [] => Except.ok []
  | issue :: rest =>
      match buildRow getPRsFromJira issue with
      | .error e => Except.error e
      | .ok row =>
          match buildTable getPRsFromJira rest with
          | .error e => Except.error e
          | .ok rows => Except.ok (row :: rows)

/-- displayReleaseDetails (lines 125-154): fetch the Jira cards
(jiraRes.issues is read from the possibly-undefined result — a TypeError
when the search failed), build the table, console.table it.  The .ok
payload is the rendered table; LogEvent.table marks that console.table
ran. -/
def displayReleaseDetails (search : String → Except String SearchResult)
    (getPRsFromJira : String → Except JsError DevStatus) (releaseVersion : JsStr) :
    List LogEvent × Except JsError (List (String × TableRow)) :=
  let res := getJiraCardsFromRelease search releaseVersion
  match res.2 with
  | none =>
      (res.1, Except.error (JsError.typeError "Cannot read properties of undefined (reading issues)"))
  | some jiraRes =>
      match buildTable getPRsFromJira jiraRes.issues with
      | .error e => (res.1, Except.error e)
      | .ok rows => (res.1 ++ [LogEvent.table], Except.ok rows)

/-- The includes-guard at line 11: RELEASE_ACTIONS.includes(releaseAction),
where releaseAction is process.argv[2] and may be undefined (undefined is
a member of no string array). -/
def actionIsValid : JsStr → Bool
  | JsStr.undef => false
  | JsStr.str s => RELEASE_ACTIONS.contains s

/-- The three entry points selected by the switch at lines 261-273. -/
inductive EntryPoint where
  | check
  | release_branch
  | release_pr
deriving DecidableEq

/-- The top of the script (lines 11-14) followed by the switch (lines
261-273): an invalid token logs the invalid-action error and returns
with no entry point selected; otherwise the switch selects the matching
entry point. -/
def dispatch (releaseAction : JsStr) : List LogEvent × Option EntryPoint :=
  if actionIsValid releaseAction then
    match releaseAction with
    | JsStr.str "check" => ([], some EntryPoint.check)
    | JsStr.str "release_branch" => ([], some EntryPoint.release_branch)
    | JsStr.str "release_pr" => ([], some EntryPoint.release_pr)
    | _ => ([], none)
  else
    ([LogEvent.error ("Invalid action \"" ++ releaseAction.interp ++ "\"!")], none)

/-- The observable outcome of one whole run of the script. -/
inductive MainOutcome where
  | invalid (logs : List LogEvent)
  | ranCheck (logs : List LogEvent) (result : Except JsError (List (String × TableRow)))
  | ranBranch (logs : List LogEvent) (result : Except JsError (List BranchEvent))
  | ranPr (logs : List LogEvent) (result : Except JsError (List PrEvent))
deriving DecidableEq

/-- A whole run: argv[2] and argv[3] drive the guard and the selected
entry point (the release version is read with no validation at line 16,
whatever the action). -/
def runMain (releaseAction releaseVersion : JsStr)
    (search : String → Except String SearchResult)
    (getPRsFromJira : String → Except JsError DevStatus)
    (repoEnv : String → GitEnv) (prApi : String → Except String Unit) : MainOutcome :=
  match (dispatch releaseAction).2 with
  | none => MainOutcome.invalid (dispatch releaseAction).1
  | some EntryPoint.check =>
      let r := displayReleaseDetails search getPRsFromJira releaseVersion
      MainOutcome.ranCheck r.1 r.2
  | some EntryPoint.release_branch =>
      let r := createReleaseBranches search getPRsFromJira repoEnv releaseVersion
      MainOutcome.ranBranch r.1 r.2
  | some EntryPoint.release_pr =>
      let r := createReleasePRs search getPRsFromJira prApi releaseVersion
      MainOutcome.ranPr r.1 r.2

/-- The repository an event acted on, if it was not a skip. -/
def branchActedRepo : BranchEvent → Option String
  | BranchEvent.skip _ => none
  | BranchEvent.attempt r _ _ => some r

/-- The repositories the Branch Operator acted on, in order. -/
def branchActedRepos (es : List BranchEvent) : List String :=
  es.filterMap branchActedRepo

/-- The repository a PR event acted on, if it was not a skip. -/
def prActedRepo : PrEvent → Option String
  | PrEvent.skip _ => none
  | PrEvent.attempt r _ _ => some r

/-- The repositories the Pull Request Operator acted on, in order. -/
def prActedRepos (es : List PrEvent) : List String :=
  es.filterMap prActedRepo

/-
Concrete scenario data, used by the witness theorems.  It follows the
scenario of the spec (section 8): release 2.0.0 with issues X and Y;
issue X links pull requests in developer-api and scratchpad, issue Y in
developer-api (plus a case variant of a whitelisted name, to exercise
the case-sensitive membership test).
-/

/-- Scenario issue X. -/
def issueX : Issue :=
  { id := "10001", key := "DC-1"
  , fields := { summary := "Feature X", statusName := "Done", issuelinks := [], remarks := none } }

/-- Scenario issue Y. -/
def issueY : Issue :=
  { id := "10002", key := "DC-2"
  , fields := { summary := "Feature Y", statusName := "Done", issuelinks := [], remarks := none } }

/-- Scenario issue Z, with zero linked pull requests. -/
def issueZ : Issue :=
  { id := "10003", key := "DC-3"
  , fields := { summary := "Docs only", statusName := "Done", issuelinks := [], remarks := none } }

/-- Scenario search result for release 2.0.0. -/
def resW : SearchResult := { issues := [issueX, issueY] }

/-- Scenario detail service: issue X has pull requests in developer-api
(twice) and scratchpad; issue Y in developer-api and Storefront-API (a
case variant of the whitelisted storefront-api). -/
def detailW : String → Except JsError DevStatus := fun id =>
  if id = "10001" then
    Except.ok { detail := [{ pullRequests :=
      [{ repositoryName := "developer-api", authorName := "alice" }
      ,{ repositoryName := "scratchpad", authorName := "alice" }
      ,{ repositoryName := "developer-api", authorName := "bob" }] }] }
  else if id = "10002" then
    Except.ok { detail := [{ pullRequests :=
      [{ repositoryName := "developer-api", authorName := "bob" }
      ,{ repositoryName := "Storefront-API", authorName := "bob" }] }] }
  else if id = "10003" then
    Except.ok { detail := [{ pullRequests := [] }] }
  else
    Except.error (JsError.thrown "unknown issue")

/-- Scenario search service: always returns the release 2.0.0 issues. -/
def searchW : String → Except String SearchResult := fun _ => Except.ok resW

/-- A search service whose call always rejects. -/
def failSearch : String → Except String SearchResult := fun _ =>
  Except.error "network error"

/-- A detail service whose fetch succeeds for issue X only and rejects
for every other issue. -/
def detailFailY : String → Except JsError DevStatus := fun id =>
  if id = "10001" then detailW "10001"
  else Except.error (JsError.thrown "detail fetch failed")

/-- Scenario git layer: every working copy is clean and every command
succeeds. -/
def envW : String → GitEnv := fun _ => { isClean := true, fails := fun _ => none }

/-- A git layer where every command in developer-api's working copy is
fine except git.fetch, which rejects; every other repository is fine. -/
def envFetchFails : String → GitEnv := fun repo =>
  if repo = "developer-api" then
    { isClean := true
    , fails := fun c => if c = GitCmd.fetch then some "could not read from remote" else none }
  else
    { isClean := true, fails := fun _ => none }

/-- Scenario PR API: every creation succeeds. -/
def apiW : String → Except String Unit := fun _ => Except.ok ()

/-- A PR API that rejects for developer-api and succeeds elsewhere. -/
def apiFailDev : String → Except String Unit := fun repo =>
  if repo = "developer-api" then Except.error "there is already a pull request"
  else Except.ok ()

theorem mem_uniqAux (l : List String) : ∀ (seen : List String) (a : String),
    a ∈ uniqAux seen l ↔ (a ∈ l ∧ a ∉ seen) := by
  induction l with
  | nil => intro seen a; simp [uniqAux]
  | cons x xs ih =>
      intro seen a
      by_cases hx : x ∈ seen
      · rw [uniqAux, if_pos hx, ih]
        simp only [List.mem_cons]
        constructor
        · exact fun h => ⟨Or.inr h.1, h.2⟩
        · rintro ⟨h | h, hns⟩
          · exact absurd (h ▸ hx) hns
          · exact ⟨h, hns⟩
      · rw [uniqAux, if_neg hx]
        simp only [List.mem_cons, ih, List.mem_cons]
        by_cases hax : a = x
        · subst hax; simp [hx]
        · simp [hax]

theorem nodup_uniqAux (l : List String) : ∀ seen : List String,
    (uniqAux seen l).Nodup := by
  induction l with
  | nil => intro seen; simp [uniqAux]
  | cons x xs ih =>
      intro seen
      by_cases hx : x ∈ seen
      · rw [uniqAux, if_pos hx]; exact ih seen
      · rw [uniqAux, if_neg hx]
        refine List.nodup_cons.mpr ⟨?_, ih (x :: seen)⟩
        rw [mem_uniqAux]
        rintro ⟨-, hmem⟩
        exact hmem (List.mem_cons_self x seen)

theorem mem_uniq (l : List String) (a : String) : a ∈ uniq l ↔ a ∈ l := by
  rw [uniq, mem_uniqAux]
  simp

theorem nodup_uniq (l : List String) : (uniq l).Nodup := nodup_uniqAux l []

theorem uniq_nil : uniq [] = [] := rfl

theorem getReposFromReleaseAux_mem (f : String → Except JsError DevStatus) :
    ∀ (issues : List Issue) (rs : List String),
      getReposFromReleaseAux f issues = Except.ok rs →
      ∀ r : String, r ∈ rs ↔ referencedIn f issues r := by
  intro issues
  induction issues with
  | nil =>
      intro rs h r
      rw [getReposFromReleaseAux] at h
      cases h
      simp [referencedIn]
  | cons i rest ih =>
      intro rs h r
      rw [getReposFromReleaseAux] at h
      split at h
      · cases h
      next d hf =>
        split at h
        · cases h
        next entry t hd =>
          split at h
          · cases h
          next rs0 haux =>
              cases h
              rw [List.mem_append, mem_uniq, ih rs0 haux r]
              constructor
              · rintro (hm | hm)
                · exact ⟨i, List.mem_cons_self i rest, d, hf, entry, t, hd, hm⟩
                · rcases hm with ⟨j, hj, d0, hd0, e0, t0, he0, hm0⟩
                  exact ⟨j, List.mem_cons_of_mem i hj, d0, hd0, e0, t0, he0, hm0⟩
              · rintro ⟨j, hj, d0, hd0, e0, t0, he0, hm0⟩
                rcases List.mem_cons.mp hj with hji | hjr
                · subst hji
                  rw [hf] at hd0
                  cases hd0
                  rw [hd] at he0
                  cases he0
                  exact Or.inl hm0
                · exact Or.inr ⟨j, hjr, d0, hd0, e0, t0, he0, hm0⟩

theorem getReposFromRelease_mem (f : String → Except JsError DevStatus)
    (release : SearchResult) (rs : List String)
    (h : getReposFromRelease f release = Except.ok rs) :
    (∀ r : String, r ∈ rs ↔ referencedIn f release.issues r) ∧ rs.Nodup := by
  rw [getReposFromRelease] at h
  cases haux : getReposFromReleaseAux f release.issues with
  | error e => rw [haux] at h; cases h
  | ok rs0 =>
      rw [haux] at h
      cases h
      refine ⟨fun r => ?_, nodup_uniq rs0⟩
      rw [mem_uniq]
      exact getReposFromReleaseAux_mem f release.issues rs0 haux r

theorem getReposFromReleaseAux_error (f : String → Except JsError DevStatus) :
    ∀ (issues : List Issue) (i : Issue) (e : JsError),
      i ∈ issues → f i.id = Except.error e →
      ∃ e' : JsError, getReposFromReleaseAux f issues = Except.error e' := by
  intro issues
  induction issues with
  | nil => intro i e hi; cases hi
  | cons i0 rest ih =>
      intro i e hi hf
      cases hf0 : f i0.id with
      | error e0 =>
          exact ⟨e0, by rw [getReposFromReleaseAux, hf0]⟩
      | ok d =>
          have hir : i ∈ rest := by
            rcases List.mem_cons.mp hi with h | h
            · subst h; rw [hf] at hf0; cases hf0
            · exact h
          cases hd : d.detail with
          | nil =>
              refine ⟨JsError.typeError "Cannot read properties of undefined (reading pullRequests)", ?_⟩
              simp only [getReposFromReleaseAux, hf0, hd]
          | cons entry t =>
              rcases ih i e hir hf with ⟨e', haux⟩
              exact ⟨e', by simp only [getReposFromReleaseAux, hf0, hd, haux]⟩

theorem getReposFromRelease_error (f : String → Except JsError DevStatus)
    (release : SearchResult) (i : Issue) (e : JsError)
    (hi : i ∈ release.issues) (hf : f i.id = Except.error e) :
    ∃ e' : JsError, getReposFromRelease f release = Except.error e' := by
  rcases getReposFromReleaseAux_error f release.issues i e hi hf with ⟨e', haux⟩
  exact ⟨e', by rw [getReposFromRelease, haux]⟩

theorem branchActedRepos_loop (repoEnv : String → GitEnv) (bn : String) :
    ∀ rr : List String,
      branchActedRepos (branchLoop repoEnv bn rr)
        = rr.filter (fun r => WHITELISTED_REPOS.contains r) := by
  intro rr
  induction rr with
  | nil => rfl
  | cons r rs ih =>
      by_cases hw : r ∈ WHITELISTED_REPOS
      · simp [branchLoop, branchStep, branchActedRepos, branchActedRepo, hw,
          List.filter_cons]
        simpa [branchActedRepos] using ih
      · simp [branchLoop, branchStep, branchActedRepos, branchActedRepo, hw,
          List.filter_cons]
        simpa [branchActedRepos] using ih

theorem prActedRepos_loop (prApi : String → Except String Unit) (v : JsStr) :
    ∀ rr : List String,
      prActedRepos (prLoop prApi v rr)
        = rr.filter (fun r => WHITELISTED_REPOS.contains r) := by
  intro rr
  induction rr with
  | nil => rfl
  | cons r rs ih =>
      by_cases hw : r ∈ WHITELISTED_REPOS
      · simp [prLoop, prStep, prActedRepos, prActedRepo, hw, List.filter_cons]
        simpa [prActedRepos] using ih
      · simp [prLoop, prStep, prActedRepos, prActedRepo, hw, List.filter_cons]
        simpa [prActedRepos] using ih

theorem branch_skip_mem (repoEnv : String → GitEnv) (bn : String) :
    ∀ (rr : List String) (r : String), r ∈ rr → WHITELISTED_REPOS.contains r = false →
      BranchEvent.skip r ∈ branchLoop repoEnv bn rr := by
  intro rr
  induction rr with
  | nil => intro r hr; cases hr
  | cons x xs ih =>
      intro r hr hw
      rcases List.mem_cons.mp hr with h | h
      · subst h
        rw [branchLoop, branchStep, hw]
        simp
      · exact List.mem_cons_of_mem _ (ih r h hw)

theorem pr_skip_mem (prApi : String → Except String Unit) (v : JsStr) :
    ∀ (rr : List String) (r : String), r ∈ rr → WHITELISTED_REPOS.contains r = false →
      PrEvent.skip r ∈ prLoop prApi v rr := by
  intro rr
  induction rr with
  | nil => intro r hr; cases hr
  | cons x xs ih =>
      intro r hr hw
      rcases List.mem_cons.mp hr with h | h
      · subst h
        rw [prLoop, prStep, hw]
        simp
      · exact List.mem_cons_of_mem _ (ih r h hw)

theorem branch_attempt_mem (repoEnv : String → GitEnv) (bn : String) :
    ∀ (rr : List String) (r : String), r ∈ rr → WHITELISTED_REPOS.contains r = true →
      BranchEvent.attempt r (checkoutBranch (repoEnv r) bn).1 (checkoutBranch (repoEnv r) bn).2
        ∈ branchLoop repoEnv bn rr := by
  intro rr
  induction rr with
  | nil => intro r hr; cases hr
  | cons x xs ih =>
      intro r hr hw
      rcases List.mem_cons.mp hr with h | h
      · subst h
        rw [branchLoop, branchStep, hw]
        simp
      · exact List.mem_cons_of_mem _ (ih r h hw)

theorem pr_attempt_mem (prApi : String → Except String Unit) (v : JsStr) :
    ∀ (rr : List String) (r : String), r ∈ rr → WHITELISTED_REPOS.contains r = true →
      PrEvent.attempt r (BITBUCKET_API_CREATE_PR_REQUEST_DATA v) (prApi r)
        ∈ prLoop prApi v rr := by
  intro rr
  induction rr with
  | nil => intro r hr; cases hr
  | cons x xs ih =>
      intro r hr hw
      rcases List.mem_cons.mp hr with h | h
      · subst h
        rw [prLoop, prStep, hw]
        simp
      · exact List.mem_cons_of_mem _ (ih r h hw)

theorem branchLoop_length (repoEnv : String → GitEnv) (bn : String) :
    ∀ rr : List String, (branchLoop repoEnv bn rr).length = rr.length := by
  intro rr
  induction rr with
  | nil => rfl
  | cons x xs ih => rw [branchLoop, List.length_cons, List.length_cons, ih]

theorem prLoop_length (prApi : String → Except String Unit) (v : JsStr) :
    ∀ rr : List String, (prLoop prApi v rr).length = rr.length := by
  intro rr
  induction rr with
  | nil => rfl
  | cons x xs ih => rw [prLoop, List.length_cons, List.length_cons, ih]

theorem createReleaseBranches_ok (search : String → Except String SearchResult)
    (f : String → Except JsError DevStatus) (repoEnv : String → GitEnv) (v : JsStr)
    (res : SearchResult) (rr : List String)
    (hs : search (jqlFor v) = Except.ok res)
    (hr : getReposFromRelease f res = Except.ok rr) :
    createReleaseBranches search f repoEnv v
      = ([], Except.ok (branchLoop repoEnv (releaseBranchName v) rr)) := by
  rw [createReleaseBranches, getJiraCardsFromRelease, hs]
  simp only [hr]

theorem createReleasePRs_ok (search : String → Except String SearchResult)
    (f : String → Except JsError DevStatus) (prApi : String → Except String Unit) (v : JsStr)
    (res : SearchResult) (rr : List String)
    (hs : search (jqlFor v) = Except.ok res)
    (hr : getReposFromRelease f res = Except.ok rr) :
    createReleasePRs search f prApi v
      = ([], Except.ok (prLoop prApi v rr)) := by
  rw [createReleasePRs, getJiraCardsFromRelease, hs]
  simp only [hr]

theorem createReleaseBranches_resolutionError (search : String → Except String SearchResult)
    (f : String → Except JsError DevStatus) (repoEnv : String → GitEnv) (v : JsStr)
    (res : SearchResult) (e : JsError)
    (hs : search (jqlFor v) = Except.ok res)
    (hr : getReposFromRelease f res = Except.error e) :
    createReleaseBranches search f repoEnv v = ([], Except.error e) := by
  rw [createReleaseBranches, getJiraCardsFromRelease, hs]
  simp only [hr]

theorem createReleasePRs_resolutionError (search : String → Except String SearchResult)
    (f : String → Except JsError DevStatus) (prApi : String → Except String Unit) (v : JsStr)
    (res : SearchResult) (e : JsError)
    (hs : search (jqlFor v) = Except.ok res)
    (hr : getReposFromRelease f res = Except.error e) :
    createReleasePRs search f prApi v = ([], Except.error e) := by
  rw [createReleasePRs, getJiraCardsFromRelease, hs]
  simp only [hr]

theorem gitStep_cons (env : GitEnv) (c c0 : GitCmd) (tr : List GitCmd)
    (res : Except String Unit) :
    gitStep env c (c0 :: tr, res)
      = (c0 :: (gitStep env c (tr, res)).1, (gitStep env c (tr, res)).2) := by
  cases res with
  | error e => rfl
  | ok u =>
      cases hf : env.fails c with
      | none => simp [gitStep, hf]
      | some m => simp [gitStep, hf]

theorem runPlan_append (env : GitEnv) :
    ∀ (l : List GitCmd) (c : GitCmd),
      runPlan env (l ++ [c]) = gitStep env c (runPlan env l) := by
  intro l
  induction l with
  | nil =>
      intro c
      cases hf : env.fails c with
      | none => simp [runPlan, gitStep, hf]
      | some m => simp [runPlan, gitStep, hf]
  | cons c0 l ih =>
      intro c
      rw [List.cons_append, runPlan]
      cases hf0 : env.fails c0 with
      | some m =>
          rw [runPlan]
          rw [hf0]
          simp [gitStep]
      | none =>
          simp only [runPlan, hf0, ih c, gitStep_cons]

theorem stash_runPlan (env : GitEnv) :
    stashChangesIfNeeded env ([], Except.ok ())
      = runPlan env (GitCmd.status :: (if env.isClean then [] else [GitCmd.stash])) := by
  cases hc : env.isClean with
  | true =>
      cases hs : env.fails GitCmd.status with
      | none => simp [stashChangesIfNeeded, gitStep, runPlan, hc, hs]
      | some m => simp [stashChangesIfNeeded, gitStep, runPlan, hc, hs]
  | false =>
      cases hs : env.fails GitCmd.status with
      | some m => simp [stashChangesIfNeeded, gitStep, runPlan, hc, hs]
      | none =>
          cases hst : env.fails GitCmd.stash with
          | none => simp [stashChangesIfNeeded, gitStep, runPlan, hc, hs, hst]
          | some m => simp [stashChangesIfNeeded, gitStep, runPlan, hc, hs, hst]

/-- C1: for every release whose search and resolution succeed, the set
of repositories either operator acts on is exactly the resolved
repositories (those referenced by the release's pull requests)
intersected with the static whitelist — never a superset — membership
being the exact string equality of Array.includes; every resolved
repository outside the whitelist gets a visible skip notice and no
attempt from either operator. -/
theorem whitelist_intersection_exact
    (search : String → Except String SearchResult) (f : String → Except JsError DevStatus)
    (repoEnv : String → GitEnv) (prApi : String → Except String Unit) (v : JsStr)
    (res : SearchResult) (rr : List String)
    (bevents : List BranchEvent) (pevents : List PrEvent)
    (hs : search (jqlFor v) = Except.ok res)
    (hr : getReposFromRelease f res = Except.ok rr)
    (hb : (createReleaseBranches search f repoEnv v).2 = Except.ok bevents)
    (hp : (createReleasePRs search f prApi v).2 = Except.ok pevents) :
    branchActedRepos bevents = rr.filter (fun r => WHITELISTED_REPOS.contains r)
    ∧ prActedRepos pevents = rr.filter (fun r => WHITELISTED_REPOS.contains r)
    ∧ (∀ r, r ∈ branchActedRepos bevents ↔
        (referencedIn f res.issues r ∧ WHITELISTED_REPOS.contains r = true))
    ∧ (∀ r, r ∈ prActedRepos pevents ↔
        (referencedIn f res.issues r ∧ WHITELISTED_REPOS.contains r = true))
    ∧ (∀ r ∈ rr, WHITELISTED_REPOS.contains r = false →
        BranchEvent.skip r ∈ bevents ∧ PrEvent.skip r ∈ pevents
        ∧ r ∉ branchActedRepos bevents ∧ r ∉ prActedRepos pevents) := by
  have hb2 := hb
  rw [createReleaseBranches_ok search f repoEnv v res rr hs hr] at hb2
  have hbe : branchLoop repoEnv (releaseBranchName v) rr = bevents := Except.ok.inj hb2
  have hp2 := hp
  rw [createReleasePRs_ok search f prApi v res rr hs hr] at hp2
  have hpe : prLoop prApi v rr = pevents := Except.ok.inj hp2
  subst hbe
  subst hpe
  have hmem := (getReposFromRelease_mem f res rr hr).1
  refine ⟨branchActedRepos_loop repoEnv (releaseBranchName v) rr,
    prActedRepos_loop prApi v rr, fun r => ?_, fun r => ?_, fun r hrin hw => ?_⟩
  · rw [branchActedRepos_loop, List.mem_filter]
    exact and_congr_left (fun _ => hmem r)
  · rw [prActedRepos_loop, List.mem_filter]
    exact and_congr_left (fun _ => hmem r)
  · refine ⟨branch_skip_mem repoEnv (releaseBranchName v) rr r hrin hw,
      pr_skip_mem prApi v rr r hrin hw, ?_, ?_⟩
    · rw [branchActedRepos_loop, List.mem_filter]
      rintro ⟨-, hc⟩
      rw [hw] at hc
      exact absurd hc (by simp)
    · rw [prActedRepos_loop, List.mem_filter]
      rintro ⟨-, hc⟩
      rw [hw] at hc
      exact absurd hc (by simp)

/-- C1 witness: the spec's own scenario (release 2.0.0, repositories
developer-api, scratchpad, Storefront-API resolved): the acted set is
the whitelist filter of the resolved set, and scratchpad gets a skip
event. -/
theorem whitelist_intersection_exact_witness :
    getReposFromRelease detailW resW
        = Except.ok ["developer-api", "scratchpad", "Storefront-API"]
    ∧ branchActedRepos (branchLoop envW (releaseBranchName (JsStr.str "2.0.0"))
          ["developer-api", "scratchpad", "Storefront-API"])
        = List.filter (fun r => WHITELISTED_REPOS.contains r)
            ["developer-api", "scratchpad", "Storefront-API"]
    ∧ BranchEvent.skip "scratchpad"
        ∈ branchLoop envW (releaseBranchName (JsStr.str "2.0.0"))
            ["developer-api", "scratchpad", "Storefront-API"] := by
  have h := whitelist_intersection_exact searchW detailW envW apiW (JsStr.str "2.0.0") resW
      ["developer-api", "scratchpad", "Storefront-API"] _ _ rfl (by decide) rfl rfl
  exact ⟨by decide, h.1, (h.2.2.2.2 "scratchpad" (by decide) (by decide)).1⟩

/-- C3: if the per-issue detail fetch fails for any issue of the
release, the whole repository resolution fails (no partial repository
list is produced), and consequently both the branch action and the PR
action reject without acting on any repository. -/
theorem detail_failure_fails_resolution
    (search : String → Except String SearchResult) (f : String → Except JsError DevStatus)
    (repoEnv : String → GitEnv) (prApi : String → Except String Unit) (v : JsStr)
    (res : SearchResult) (i : Issue) (e : JsError)
    (hs : search (jqlFor v) = Except.ok res)
    (hi : i ∈ res.issues) (hf : f i.id = Except.error e) :
    (∃ e1, getReposFromRelease f res = Except.error e1)
    ∧ (∃ e2, (createReleaseBranches search f repoEnv v).2 = Except.error e2)
    ∧ (∃ e3, (createReleasePRs search f prApi v).2 = Except.error e3) := by
  rcases getReposFromRelease_error f res i e hi hf with ⟨e1, h1⟩
  refine ⟨⟨e1, h1⟩, ⟨e1, ?_⟩, ⟨e1, ?_⟩⟩
  · rw [createReleaseBranches_resolutionError search f repoEnv v res e1 hs h1]
  · rw [createReleasePRs_resolutionError search f prApi v res e1 hs h1]

/-- C3 witness: with the detail fetch rejecting for issue Y of release
2.0.0, the resolution and both operator actions reject. -/
theorem detail_failure_fails_resolution_witness :
    detailFailY "10002" = Except.error (JsError.thrown "detail fetch failed")
    ∧ (∃ e1, getReposFromRelease detailFailY resW = Except.error e1)
    ∧ (∃ e2, (createReleaseBranches searchW detailFailY envW (JsStr.str "2.0.0")).2
          = Except.error e2)
    ∧ (∃ e3, (createReleasePRs searchW detailFailY apiW (JsStr.str "2.0.0")).2
          = Except.error e3) := by
  have h := detail_failure_fails_resolution searchW detailFailY envW apiW (JsStr.str "2.0.0")
      resW issueY (JsError.thrown "detail fetch failed") rfl (by decide) (by decide)
  exact ⟨by decide, h.1, h.2.1, h.2.2⟩

/-- C4: a failure of the branch-creation sequence or of the PR-creation
call for one whitelisted repository is caught and recorded as an attempt
event carrying the repository name and the underlying error, and every
whitelisted repository in the resolved list — later ones included —
still gets its own full attempt with its own outcome: one repository's
failure never aborts the batch (the loop emits one event per resolved
repository). -/
theorem repo_failure_isolated
    (repoEnv : String → GitEnv) (prApi : String → Except String Unit)
    (bn : String) (v : JsStr) (rr : List String) (a : String) (ea ep : String)
    (ha : a ∈ rr)
    (haw : WHITELISTED_REPOS.contains a = true)
    (hfb : (checkoutBranch (repoEnv a) bn).2 = Except.error ea)
    (hfp : prApi a = Except.error ep) :
    BranchEvent.attempt a (checkoutBranch (repoEnv a) bn).1 (Except.error ea)
        ∈ branchLoop repoEnv bn rr
    ∧ PrEvent.attempt a (BITBUCKET_API_CREATE_PR_REQUEST_DATA v) (Except.error ep)
        ∈ prLoop prApi v rr
    ∧ (∀ b ∈ rr, WHITELISTED_REPOS.contains b = true →
        BranchEvent.attempt b (checkoutBranch (repoEnv b) bn).1 (checkoutBranch (repoEnv b) bn).2
          ∈ branchLoop repoEnv bn rr
        ∧ PrEvent.attempt b (BITBUCKET_API_CREATE_PR_REQUEST_DATA v) (prApi b)
          ∈ prLoop prApi v rr)
    ∧ (branchLoop repoEnv bn rr).length = rr.length
    ∧ (prLoop prApi v rr).length = rr.length := by
  refine ⟨?_, ?_,
    fun b hb hbw => ⟨branch_attempt_mem repoEnv bn rr b hb hbw,
      pr_attempt_mem prApi v rr b hb hbw⟩,
    branchLoop_length repoEnv bn rr, prLoop_length prApi v rr⟩
  · have h := branch_attempt_mem repoEnv bn rr a ha haw
    rwa [hfb] at h
  · have h := pr_attempt_mem prApi v rr a ha haw
    rwa [hfp] at h

/-- C4 witness: the git fetch rejects in developer-api but
storefront-api, later in the resolved list, still gets its full attempt;
likewise the PR API rejects for developer-api. -/
theorem repo_failure_isolated_witness :
    (checkoutBranch (envFetchFails "developer-api") "release/2.0.0").2
        = Except.error "could not read from remote"
    ∧ BranchEvent.attempt "storefront-api"
          (checkoutBranch (envFetchFails "storefront-api") "release/2.0.0").1
          (checkoutBranch (envFetchFails "storefront-api") "release/2.0.0").2
        ∈ branchLoop envFetchFails "release/2.0.0" ["developer-api", "storefront-api"]
    ∧ PrEvent.attempt "storefront-api"
          (BITBUCKET_API_CREATE_PR_REQUEST_DATA (JsStr.str "2.0.0"))
          (apiFailDev "storefront-api")
        ∈ prLoop apiFailDev (JsStr.str "2.0.0") ["developer-api", "storefront-api"] := by
  have h := repo_failure_isolated envFetchFails apiFailDev "release/2.0.0" (JsStr.str "2.0.0")
      ["developer-api", "storefront-api"] "developer-api"
      "could not read from remote" "there is already a pull request"
      (by decide) (by decide) (by decide) (by decide)
  have hb := (h.2.2.1 "storefront-api" (by decide) (by decide))
  exact ⟨by decide, hb.1, hb.2⟩

/-- C5: whenever repository resolution succeeds, the result has no
duplicates, contains a repository exactly when some pull request of some
issue references it (so a repository referenced several times appears
exactly once), and is empty for a release with zero issues. -/
theorem resolver_distinct_repos (f : String → Except JsError DevStatus)
    (release : SearchResult) (rr : List String)
    (h : getReposFromRelease f release = Except.ok rr) :
    rr.Nodup
    ∧ (∀ r, r ∈ rr ↔ referencedIn f release.issues r)
    ∧ (∀ r, referencedIn f release.issues r → rr.count r = 1)
    ∧ (release.issues = [] → rr = []) := by
  obtain ⟨hmem, hnd⟩ := getReposFromRelease_mem f release rr h
  refine ⟨hnd, hmem, fun r hr => ?_, fun hnil => ?_⟩
  · exact List.count_eq_one_of_mem hnd ((hmem r).mpr hr)
  · rw [getReposFromRelease, hnil] at h
    simp only [getReposFromReleaseAux] at h
    injection h with h
    exact h.symm

/-- C5 witness: the scenario resolution of release 2.0.0 — developer-api
is referenced by three pull requests across two issues yet appears once,
and the result has no duplicates. -/
theorem resolver_distinct_repos_witness :
    getReposFromRelease detailW resW
        = Except.ok ["developer-api", "scratchpad", "Storefront-API"]
    ∧ List.Nodup ["developer-api", "scratchpad", "Storefront-API"]
    ∧ List.count "developer-api" ["developer-api", "scratchpad", "Storefront-API"] = 1 := by
  have h := resolver_distinct_repos detailW resW
      ["developer-api", "scratchpad", "Storefront-API"] (by decide)
  refine ⟨by decide, h.1, ?_⟩
  exact h.2.2.1 "developer-api"
    ⟨issueX, by decide,
      { detail := [{ pullRequests :=
          [{ repositoryName := "developer-api", authorName := "alice" }
          ,{ repositoryName := "scratchpad", authorName := "alice" }
          ,{ repositoryName := "developer-api", authorName := "bob" }] }] },
      by decide,
      { pullRequests :=
        [{ repositoryName := "developer-api", authorName := "alice" }
        ,{ repositoryName := "scratchpad", authorName := "alice" }
        ,{ repositoryName := "developer-api", authorName := "bob" }] }, [], by decide, by decide⟩

/-- C2 (divergence witness): when the issue-tracker search call fails,
getJiraCardsFromRelease logs the failure and returns undefined — but the
callers do NOT treat the undefined result as no-further-processing: both
the check action and the release_branch action immediately read .issues
of undefined and reject with an unhandled TypeError.  The observable
outcomes the spec expects still hold (no table is rendered, no branch
operation is performed), yet they arise from a crash, not from graceful
handling. -/
theorem search_failure_crashes_callers :
    getJiraCardsFromRelease failSearch (JsStr.str "1.2.3")
      = ([LogEvent.error "Error retrieving Jira cards from the release: network error"], none)
    ∧ (displayReleaseDetails failSearch detailW (JsStr.str "1.2.3")).2
        = Except.error (JsError.typeError "Cannot read properties of undefined (reading issues)")
    ∧ LogEvent.table ∉ (displayReleaseDetails failSearch detailW (JsStr.str "1.2.3")).1
    ∧ (createReleaseBranches failSearch detailW envW (JsStr.str "1.2.3")).2
        = Except.error (JsError.typeError "Cannot read properties of undefined (reading issues)")
    ∧ (createReleasePRs failSearch detailW apiW (JsStr.str "1.2.3")).2
        = Except.error (JsError.typeError "Cannot read properties of undefined (reading issues)") := by
  refine ⟨rfl, rfl, by decide, rfl, rfl⟩

/-- C6: for every release identifier, the PR request body carries title
Release-identifier, empty description, destination branch master and
source branch equal to releaseBranchName — the very string the Branch
Operator passes to checkoutLocalBranch and push when it creates the
branch — and identifier 1.2.3 yields release/1.2.3. -/
theorem pr_request_matches_branch_name (v : JsStr) (clean : Bool) :
    (BITBUCKET_API_CREATE_PR_REQUEST_DATA v).title = "Release " ++ v.interp
    ∧ (BITBUCKET_API_CREATE_PR_REQUEST_DATA v).description = ""
    ∧ (BITBUCKET_API_CREATE_PR_REQUEST_DATA v).destination.branch.name = "master"
    ∧ (BITBUCKET_API_CREATE_PR_REQUEST_DATA v).source.branch.name = releaseBranchName v
    ∧ releaseBranchName v = "release/" ++ v.interp
    ∧ GitCmd.checkoutLocalBranch (releaseBranchName v)
        ∈ (checkoutBranch { isClean := clean, fails := fun _ => none } (releaseBranchName v)).1
    ∧ GitCmd.push "origin" (releaseBranchName v)
        ∈ (checkoutBranch { isClean := clean, fails := fun _ => none } (releaseBranchName v)).1
    ∧ releaseBranchName (JsStr.str "1.2.3") = "release/1.2.3" := by
  refine ⟨rfl, rfl, rfl, rfl, rfl, ?_, ?_, by decide⟩ <;>
    cases clean <;> simp [checkoutBranch, stashChangesIfNeeded, gitStep]

/-- C7: for every repository environment, the Branch Operator's
checkoutBranch is exactly the strict in-order execution — aborting at
the first failing step — of the sequence: status, stash only when the
working copy has uncommitted changes, fetch, checkout of the development
branch, pull, creation of the local release branch, push of that branch
to origin. -/
theorem branch_operator_sequence (env : GitEnv) (bn : String) :
    checkoutBranch env bn = runPlan env (specSequence env.isClean bn) := by
  have hseq : specSequence env.isClean bn
      = (((((GitCmd.status :: (if env.isClean then [] else [GitCmd.stash]))
            ++ [GitCmd.fetch]) ++ [GitCmd.checkout "dev"]) ++ [GitCmd.pull])
            ++ [GitCmd.checkoutLocalBranch bn]) ++ [GitCmd.push "origin" bn] := by
    cases env.isClean <;> simp [specSequence]
  rw [hseq, runPlan_append, runPlan_append, runPlan_append, runPlan_append, runPlan_append,
    ← stash_runPlan]
  rfl

/-- C8: an issue with zero linked pull requests contributes nothing to
the resolved repository set — resolving a release starting with such an
issue equals resolving the release without it, and resolving it alone
succeeds with the empty set. -/
theorem empty_prs_contribute_nothing (f : String → Except JsError DevStatus)
    (i : Issue) (rest : List Issue) (d : DevStatus) (entry : DetailEntry)
    (t : List DetailEntry)
    (hf : f i.id = Except.ok d) (hd : d.detail = entry :: t)
    (hpr : entry.pullRequests = []) :
    getReposFromRelease f { issues := i :: rest } = getReposFromRelease f { issues := rest }
    ∧ getReposFromRelease f { issues := [i] } = Except.ok [] := by
  have haux : getReposFromReleaseAux f (i :: rest) = getReposFromReleaseAux f rest := by
    simp only [getReposFromReleaseAux, hf, hd, hpr]
    cases getReposFromReleaseAux f rest <;> simp [uniq, uniqAux]
  constructor
  · simp only [getReposFromRelease, haux]
  · rw [getReposFromRelease]
    have h1 : getReposFromReleaseAux f [i] = Except.ok [] := by
      simp only [getReposFromReleaseAux, hf, hd, hpr]
      simp [uniq, uniqAux]
    rw [h1]
    rfl

/-- C8 witness: issue Z of the scenario carries zero pull requests;
resolving it in front of issue X equals resolving issue X alone, and
resolving it alone yields the empty set. -/
theorem empty_prs_contribute_nothing_witness :
    detailW "10003" = Except.ok { detail := [{ pullRequests := [] }] }
    ∧ getReposFromRelease detailW { issues := [issueZ, issueX] }
        = getReposFromRelease detailW { issues := [issueX] }
    ∧ getReposFromRelease detailW { issues := [issueZ] } = Except.ok [] := by
  have h := empty_prs_contribute_nothing detailW issueZ [issueX]
      { detail := [{ pullRequests := [] }] } { pullRequests := [] } []
      (by decide) rfl rfl
  exact ⟨by decide, h.1, h.2⟩

/-- C9: an action token other than the literals check, release_branch,
release_pr makes the script log the invalid-action error and return
without selecting any entry point (so a whole run performs nothing);
each of the three valid tokens selects exactly its entry point. -/
theorem dispatcher_action_tokens (a : JsStr) (h : actionIsValid a = false) :
    dispatch a = ([LogEvent.error ("Invalid action \"" ++ a.interp ++ "\"!")], none)
    ∧ dispatch (JsStr.str "check") = ([], some EntryPoint.check)
    ∧ dispatch (JsStr.str "release_branch") = ([], some EntryPoint.release_branch)
    ∧ dispatch (JsStr.str "release_pr") = ([], some EntryPoint.release_pr)
    ∧ (∀ (version : JsStr) (search : String → Except String SearchResult)
        (f : String → Except JsError DevStatus) (repoEnv : String → GitEnv)
        (prApi : String → Except String Unit),
        runMain a version search f repoEnv prApi
          = MainOutcome.invalid [LogEvent.error ("Invalid action \"" ++ a.interp ++ "\"!")]) := by
  have hd : dispatch a = ([LogEvent.error ("Invalid action \"" ++ a.interp ++ "\"!")], none) := by
    rw [dispatch, if_neg]
    · simp [h]
    all_goals (rintro rfl; exact absurd h (by decide))
  refine ⟨hd, rfl, rfl, rfl, fun version search f repoEnv prApi => ?_⟩
  rw [runMain, hd]

/-- C9 witness: the token deploy is invalid — the run logs the error and
performs nothing. -/
theorem dispatcher_action_tokens_witness :
    actionIsValid (JsStr.str "deploy") = false
    ∧ dispatch (JsStr.str "deploy") = ([LogEvent.error "Invalid action \"deploy\"!"], none)
    ∧ runMain (JsStr.str "deploy") (JsStr.str "2.0.0") searchW detailW envW apiW
        = MainOutcome.invalid [LogEvent.error "Invalid action \"deploy\"!"] := by
  have h := dispatcher_action_tokens (JsStr.str "deploy") (by decide)
  exact ⟨by decide, h.1, h.2.2.2.2 (JsStr.str "2.0.0") searchW detailW envW apiW⟩

/-- C10: the release identifier argv entry is never validated — with it
absent, the branch name is the literal string release/undefined, the PR
title is Release undefined, the JQL filters on the literal fix-version
undefined, and each of the three actions still proceeds (here: a full
release_pr run posts a PR whose source branch is release/undefined, a
full release_branch run creates the branch release/undefined, and a
check run renders its table). -/
theorem release_version_never_validated :
    releaseBranchName JsStr.undef = "release/undefined"
    ∧ (BITBUCKET_API_CREATE_PR_REQUEST_DATA JsStr.undef).title = "Release undefined"
    ∧ (BITBUCKET_API_CREATE_PR_REQUEST_DATA JsStr.undef).source.branch.name
        = "release/undefined"
    ∧ jqlFor JsStr.undef = "project = DC AND fixVersion = \"undefined\""
    ∧ runMain (JsStr.str "release_pr") JsStr.undef searchW detailW envW apiW
        = MainOutcome.ranPr []
            (Except.ok
              [PrEvent.attempt "developer-api"
                  (BITBUCKET_API_CREATE_PR_REQUEST_DATA JsStr.undef) (Except.ok ())
              , PrEvent.skip "scratchpad"
              , PrEvent.skip "Storefront-API"])
    ∧ runMain (JsStr.str "release_branch") JsStr.undef searchW detailW envW apiW
        = MainOutcome.ranBranch []
            (Except.ok
              [BranchEvent.attempt "developer-api"
                  [GitCmd.status, GitCmd.fetch, GitCmd.checkout "dev", GitCmd.pull,
                   GitCmd.checkoutLocalBranch "release/undefined",
                   GitCmd.push "origin" "release/undefined"] (Except.ok ())
              , BranchEvent.skip "scratchpad"
              , BranchEvent.skip "Storefront-API"])
    ∧ (runMain (JsStr.str "check") JsStr.undef searchW detailW envW apiW
        = MainOutcome.ranCheck [LogEvent.table]
            (Except.ok
              [("DC-1",
                { summary := "Feature X", status := "Done"
                , repo := "developer-api,scratchpad", authors := "alice,bob"
                , linkedIssues := "", deploymentRemarks := none })
              ,("DC-2",
                { summary := "Feature Y", status := "Done"
                , repo := "developer-api,Storefront-API", authors := "bob"
                , linkedIssues := "", deploymentRemarks := none })])) := by
  refine ⟨rfl, rfl, rfl, rfl, by decide, by decide, by decide⟩

end Deployment
